import Mathlib

/-!
# Verification of the `dist_expl` SAC / DistSAC implementation

A shallow embedding of the numeric core of `SAC.py`, `DistSAC.py` and
`logger.py`.  Tensors are embedded as `List ℚ` (one row of a batch) or
`List (List ℚ)` (a batch / a weight matrix); the transcendental functions
`tanh`, `exp`, `log`, `sqrt` and the constant `log(2*pi)` that the code
takes from `torch`/`numpy` are abstract parameters, bundled in `Ops`.
Python code that can raise (`Actor.forward` with an unbound `noise`
local) is embedded in `Except String`.  Optimizer steps (`torch.optim.Adam`)
are external library code and are abstracted as arbitrary functions from
(current parameters, differentiable loss function) to new parameters.
-/

/-! ## Generic list helpers (embedding of elementwise tensor arithmetic) -/

/-- Pointwise ternary zip, the embedding of broadcasting three equal-shaped
tensors through a scalar function. -/
def zipWith3 {α β γ δ : Type} (f : α → β → γ → δ) : List α → List β → List γ → List δ
  | a :: as, b :: bs, c :: cs => f a b c :: zipWith3 f as bs cs
  | _, _, _ => []

/-- Dot product of two vectors. -/
def dot (w x : List ℚ) : ℚ := (List.zipWith (fun a b => a * b) w x).sum

/-- `nn.Linear`: affine map given by a weight matrix (one row per output
feature) and a bias vector. -/
def linear (W : List (List ℚ)) (b : List ℚ) (x : List ℚ) : List ℚ :=
  List.zipWith (fun row c => dot row x + c) W b

/-- `F.relu` on a scalar. -/
def reluQ (x : ℚ) : ℚ := max x 0

/-- `F.relu` applied elementwise. -/
def reluV (x : List ℚ) : List ℚ := x.map reluQ

/-- `tensor.chunk(2, dim=-1)`: split a vector into two halves (the first
half gets the extra element when the length is odd, as in torch). -/
def chunk2 (l : List ℚ) : List ℚ × List ℚ :=
  (l.take ((l.length + 1) / 2), l.drop ((l.length + 1) / 2))

/-- `F.mse_loss`: mean of squared differences (batch of scalars). -/
def mseQ (pred target : List ℚ) : ℚ :=
  ((List.zipWith (fun a b => (a - b) ^ 2) pred target).sum) / (pred.length : ℚ)

/-- The abstract numeric primitives the source takes from torch / numpy. -/
structure Ops where
  tanh : ℚ → ℚ
  exp : ℚ → ℚ
  log : ℚ → ℚ
  sqrt : ℚ → ℚ
  log2pi : ℚ

/-- The literal `1e-6` of `apply_squashing_func`. -/
def eps6 : ℚ := 1 / 1000000

/-- The literal `1e-5` tolerance of the DistSAC `done` flag. -/
def tol5 : ℚ := 1 / 100000

/-! ## `logger.py`: meters -/

/-- `logger.AverageMeter`: a cumulative sum and a cumulative count. -/
structure AverageMeter where
  sum : ℚ
  count : ℚ

/-- A freshly constructed `AverageMeter` (the constructor calls `reset`). -/
def AverageMeter.fresh : AverageMeter := { sum := 0, count := 0 }

/-- `AverageMeter.reset`. -/
def AverageMeter.reset (_ : AverageMeter) : AverageMeter := { sum := 0, count := 0 }

/-- `AverageMeter.update(val, n)`. -/
def AverageMeter.update (m : AverageMeter) (val n : ℚ) : AverageMeter :=
  { sum := m.sum + val, count := m.count + n }

/-- `AverageMeter.compute`: `self.sum / max(1, self.count)`. -/
def AverageMeter.compute (m : AverageMeter) : ℚ := m.sum / max 1 m.count

/-- `logger.MovingAverageMeter`: circular buffers of per-slot value and
count plus a write pointer. -/
structure MovingAverageMeter where
  window_size : ℕ
  vals : List ℚ
  counts : List ℚ
  pointer : ℕ

/-- A freshly constructed `MovingAverageMeter(window_size)`: zero-filled
buffers and pointer 0. -/
def MovingAverageMeter.fresh (w : ℕ) : MovingAverageMeter :=
  { window_size := w, vals := List.replicate w 0, counts := List.replicate w 0, pointer := 0 }

/-- `MovingAverageMeter.reset`: refills both buffers with zeros and resets
the pointer. -/
def MovingAverageMeter.reset (m : MovingAverageMeter) : MovingAverageMeter :=
  { window_size := m.window_size, vals := List.replicate m.window_size 0,
    counts := List.replicate m.window_size 0, pointer := 0 }

/-- `MovingAverageMeter.update(val, n)`: overwrite the slot at the pointer
and advance the pointer modulo the window size. -/
def MovingAverageMeter.update (m : MovingAverageMeter) (val n : ℚ) : MovingAverageMeter :=
  { window_size := m.window_size, vals := m.vals.set m.pointer val,
    counts := m.counts.set m.pointer n, pointer := (m.pointer + 1) % m.window_size }

/-- `MovingAverageMeter.compute`: `vals.sum() / max(1., counts.sum())`. -/
def MovingAverageMeter.compute (m : MovingAverageMeter) : ℚ :=
  m.vals.sum / max 1 m.counts.sum

/-- Feed a list of `(val, n)` updates into a fresh moving-average meter. -/
def MovingAverageMeter.applyUpdates (w : ℕ) (us : List (ℚ × ℚ)) : MovingAverageMeter :=
  us.foldl (fun m p => m.update p.1 p.2) (MovingAverageMeter.fresh w)

theorem movingAverage_applyUpdates_append (w : ℕ) (us : List (ℚ × ℚ)) (p : ℚ × ℚ) :
    MovingAverageMeter.applyUpdates w (us ++ [p])
      = (MovingAverageMeter.applyUpdates w us).update p.1 p.2 := by
  simp [MovingAverageMeter.applyUpdates, List.foldl_append]

/-- State of the meter after at most `window_size` updates: the buffers
hold the updates in order followed by untouched zero slots, and the
pointer has advanced once per update. -/
theorem movingAverage_state_of_le (w : ℕ) (us : List (ℚ × ℚ)) (h : us.length ≤ w) :
    MovingAverageMeter.applyUpdates w us
      = { window_size := w,
          vals := us.map (fun p => p.1) ++ List.replicate (w - us.length) 0,
          counts := us.map (fun p => p.2) ++ List.replicate (w - us.length) 0,
          pointer := us.length % w } := by
  induction us using List.reverseRecOn with
  | nil =>
      simp [MovingAverageMeter.applyUpdates, MovingAverageMeter.fresh, Nat.zero_mod]
  | append_singleton us p ih =>
      have hk : us.length < w := by
        have h1 : us.length + 1 ≤ w := by simpa using h
        omega
      rw [movingAverage_applyUpdates_append, ih (Nat.le_of_lt hk)]
      have hmod : us.length % w = us.length := Nat.mod_eq_of_lt hk
      obtain ⟨r, hr⟩ : ∃ r, w - us.length = r + 1 := ⟨w - us.length - 1, by omega⟩
      have hrr : r = w - (us.length + 1) := by omega
      simp only [MovingAverageMeter.update, hmod, MovingAverageMeter.mk.injEq]
      refine ⟨trivial, ?_, ?_, by simp⟩
      · rw [hr, List.replicate_succ, List.set_append]
        simp [hrr]
      · rw [hr, List.replicate_succ, List.set_append]
        simp [hrr]

/-- C8: for every sequence of updates shorter than the window size (with
positive total count), `MovingAverageMeter.compute` returns
`sum(values)/sum(counts)` over the whole circular buffer, never-written
slots contributing zero to both sums; and once the buffer is full, the
next update overwrites the oldest slot (slot 0, which holds the first
update). -/
theorem movingAverage_partial_window_and_overwrite (w : ℕ) (us more : List (ℚ × ℚ))
    (v n : ℚ) (hlt : us.length < w) (hc : 1 ≤ (us.map (fun p => p.2)).sum)
    (hfull : more.length = w) :
    (MovingAverageMeter.applyUpdates w us).compute
        = (us.map (fun p => p.1)).sum / (us.map (fun p => p.2)).sum
    ∧ (MovingAverageMeter.applyUpdates w more).vals = more.map (fun p => p.1)
    ∧ ((MovingAverageMeter.applyUpdates w more).update v n).vals
        = (more.map (fun p => p.1)).set 0 v
    ∧ ((MovingAverageMeter.applyUpdates w more).update v n).counts
        = (more.map (fun p => p.2)).set 0 n := by
  have hstate := movingAverage_state_of_le w us (Nat.le_of_lt hlt)
  have hw : 0 < w := Nat.lt_of_le_of_lt (Nat.zero_le _) hlt
  have hfullstate := movingAverage_state_of_le w more (by omega)
  have hptr : more.length % w = 0 := by
    rw [hfull, Nat.mod_self]
  refine ⟨?_, ?_, ?_, ?_⟩
  · rw [hstate]
    simp only [MovingAverageMeter.compute, List.sum_append, List.sum_replicate, smul_zero,
      add_zero]
    rw [max_eq_right hc]
  · rw [hfullstate]
    simp [hfull]
  · rw [hfullstate]
    simp [MovingAverageMeter.update, hfull]
  · rw [hfullstate]
    simp [MovingAverageMeter.update, hfull]

/-- Witness for C8, with the spec's own example: `window_size = 4`,
updates `[(2,1), (4,1)]` give `compute() = 6/2 = 3`, not `6/4`; and after
four updates the fifth overwrites slot 0. -/
theorem movingAverage_partial_window_and_overwrite_witness :
    (MovingAverageMeter.applyUpdates 4 [(2, 1), (4, 1)]).compute
        = ([(2, 1), (4, 1)].map (fun p : ℚ × ℚ => p.1)).sum
          / ([(2, 1), (4, 1)].map (fun p : ℚ × ℚ => p.2)).sum
    ∧ (MovingAverageMeter.applyUpdates 4 [(5, 1), (6, 1), (7, 1), (8, 1)]).vals
        = ([(5, 1), (6, 1), (7, 1), (8, 1)].map (fun p : ℚ × ℚ => p.1))
    ∧ ((MovingAverageMeter.applyUpdates 4 [(5, 1), (6, 1), (7, 1), (8, 1)]).update 9 1).vals
        = (([(5, 1), (6, 1), (7, 1), (8, 1)].map (fun p : ℚ × ℚ => p.1)).set 0 9)
    ∧ ((MovingAverageMeter.applyUpdates 4 [(5, 1), (6, 1), (7, 1), (8, 1)]).update 9 1).counts
        = (([(5, 1), (6, 1), (7, 1), (8, 1)].map (fun p : ℚ × ℚ => p.2)).set 0 1) :=
  movingAverage_partial_window_and_overwrite 4 [(2, 1), (4, 1)]
    [(5, 1), (6, 1), (7, 1), (8, 1)] 9 1 (by decide) (by norm_num) (by decide)

/-- The spec example computed concretely: two updates of values 2 and 4
into a window of 4 average to 3. -/
theorem movingAverage_example :
    (MovingAverageMeter.applyUpdates 4 [(2, 1), (4, 1)]).compute = 3 := by
  rw [movingAverage_state_of_le 4 [(2, 1), (4, 1)] (by norm_num)]
  norm_num [MovingAverageMeter.compute, max_def]

/-- C10: `compute` on freshly constructed or just-reset meters is total
and returns 0: the divisor `max 1 count` is clamped to at least 1, so no
division by zero occurs. -/
theorem meters_compute_total_on_empty :
    AverageMeter.fresh.compute = 0
    ∧ (∀ m : AverageMeter, m.reset.compute = 0)
    ∧ (∀ w : ℕ, (MovingAverageMeter.fresh w).compute = 0)
    ∧ (∀ m : MovingAverageMeter, m.reset.compute = 0)
    ∧ (∀ m : AverageMeter, 1 ≤ max 1 m.count)
    ∧ (∀ m : MovingAverageMeter, 1 ≤ max 1 m.counts.sum) := by
  refine ⟨?_, ?_, ?_, ?_, ?_, ?_⟩
  · simp [AverageMeter.fresh, AverageMeter.compute]
  · intro m
    simp [AverageMeter.reset, AverageMeter.compute]
  · intro w
    simp [MovingAverageMeter.fresh, MovingAverageMeter.compute, List.sum_replicate]
  · intro m
    simp [MovingAverageMeter.reset, MovingAverageMeter.compute, List.sum_replicate]
  · intro m
    exact le_max_left 1 m.count
  · intro m
    exact le_max_left 1 m.counts.sum

/-! ## `SAC.py` lines 15-27: Gaussian likelihood and tanh squashing -/

/-- `gaussian_likelihood(noise, log_std)`:
`(-0.5*noise^2 - log_std).sum(-1) - 0.5*log(2*pi)*noise.size(-1)`. -/
def gaussian_likelihood (ops : Ops) (noise log_std : List ℚ) : ℚ :=
  (List.zipWith (fun n s => -(1 / 2) * n ^ 2 - s) noise log_std).sum
    - (1 / 2) * ops.log2pi * (noise.length : ℚ)

/-- The tanh-Jacobian correction of `apply_squashing_func`:
`log(F.relu(1 - pi.pow(2)) + 1e-6).sum(-1)` for an already-squashed `pi`. -/
def squashCorrection (ops : Ops) (p : List ℚ) : ℚ :=
  (p.map (fun t => ops.log (reluQ (1 - t ^ 2) + eps6))).sum

/-- `apply_squashing_func(mu, pi, log_pi)`: squashes `mu` and (when given)
`pi` through tanh, and subtracts the Jacobian correction from `log_pi`.
Passing `log_pi` without `pi` dereferences `None` in the source
(`pi.pow(2)`), which we embed as an error. -/
def apply_squashing_func (ops : Ops) (mu : List ℚ) (pi? : Option (List ℚ))
    (log_pi? : Option ℚ) : Except String (List ℚ × Option (List ℚ) × Option ℚ) :=
  let muT := mu.map ops.tanh
  let piT? := pi?.map (fun p => p.map ops.tanh)
  match log_pi? with
  | none => .ok (muT, piT?, none)
  | some lp =>
      match piT? with
      | some p => .ok (muT, piT?, some (lp - squashCorrection ops p))
      | none => .error "TypeError: unsupported operand type for pow: NoneType"

/-! ## `SAC.py` lines 36-73: the squashed-Gaussian actor -/

/-- `SAC.Actor`: three linear layers (`l3` producing the concatenated
mean and raw log-std) and the log-std clamping range. -/
structure Actor where
  l1W : List (List ℚ)
  l1b : List ℚ
  l2W : List (List ℚ)
  l2b : List ℚ
  l3W : List (List ℚ)
  l3b : List ℚ
  log_std_min : ℚ
  log_std_max : ℚ

/-- The shared trunk of `Actor.forward`: two ReLU layers, the output
layer, `chunk(2)`, and the tanh rescaling of `log_std` into
`[log_std_min, log_std_max]`.  Returns `(mu, log_std)` before squashing. -/
def mlpTrunk (ops : Ops) (l1W : List (List ℚ)) (l1b : List ℚ) (l2W : List (List ℚ))
    (l2b : List ℚ) (l3W : List (List ℚ)) (l3b : List ℚ) (log_std_min log_std_max : ℚ)
    (x : List ℚ) : List ℚ × List ℚ :=
  let h1 := reluV (linear l1W l1b x)
  let h2 := reluV (linear l2W l2b h1)
  let out := linear l3W l3b h2
  let mu := (chunk2 out).1
  let log_std_raw := (chunk2 out).2
  (mu, log_std_raw.map (fun t =>
    log_std_min + (1 / 2) * (log_std_max - log_std_min) * (ops.tanh t + 1)))

/-- `(mu, log_std)` of `Actor.forward` applied to state `x`. -/
def Actor.trunk (ops : Ops) (A : Actor) (x : List ℚ) : List ℚ × List ℚ :=
  mlpTrunk ops A.l1W A.l1b A.l2W A.l2b A.l3W A.l3b A.log_std_min A.log_std_max x

/-- `pi = mu + noise * std` before squashing (`std = log_std.exp()`). -/
def Actor.preSquashPi (ops : Ops) (A : Actor) (x ns : List ℚ) : List ℚ :=
  zipWith3 (fun m s n => m + n * ops.exp s) (Actor.trunk ops A x).1
    (Actor.trunk ops A x).2 ns

/-- The deterministic action `tanh(mu)` returned by `Actor.forward`. -/
def Actor.muAction (ops : Ops) (A : Actor) (x : List ℚ) : List ℚ :=
  ((Actor.trunk ops A x).1).map ops.tanh

/-- The squashed sampled action `tanh(mu + noise * std)`. -/
def Actor.sampledAction (ops : Ops) (A : Actor) (x ns : List ℚ) : List ℚ :=
  (Actor.preSquashPi ops A x ns).map ops.tanh

/-- The log-probability returned by `Actor.forward` with both flags set:
the Gaussian likelihood of the noise minus the squashing correction. -/
def Actor.sampleLogPi (ops : Ops) (A : Actor) (x ns : List ℚ) : ℚ :=
  gaussian_likelihood ops ns (Actor.trunk ops A x).2
    - squashCorrection ops (Actor.sampledAction ops A x ns)

/-- `Actor.forward(x, compute_pi, compute_log_pi)`.  The Gaussian noise
`ns` (from `torch.randn_like`) is an explicit argument; in the source
the local `noise` is only assigned inside the `if compute_pi` branch, so
requesting `compute_log_pi` without `compute_pi` raises
`UnboundLocalError`, which we embed as an error value. -/
def Actor.forward (ops : Ops) (A : Actor) (x ns : List ℚ)
    (compute_pi compute_log_pi : Bool) :
    Except String (List ℚ × Option (List ℚ) × Option ℚ) := do
  let mu := (Actor.trunk ops A x).1
  let log_std := (Actor.trunk ops A x).2
  let noise? : Option (List ℚ) := if compute_pi then some ns else none
  let pi? : Option (List ℚ) :=
    if compute_pi then some (Actor.preSquashPi ops A x ns) else none
  let log_pi? : Option ℚ ←
    if compute_log_pi then
      match noise? with
      | some noise => pure (some (gaussian_likelihood ops noise log_std))
      | none => Except.error "UnboundLocalError: local variable noise referenced before assignment"
    else pure none
  apply_squashing_func ops mu pi? log_pi?

/-- With both flags set, `Actor.forward` succeeds and returns the squashed
mean, the squashed sample and the corrected log-probability. -/
theorem Actor.forward_both (ops : Ops) (A : Actor) (x ns : List ℚ) :
    Actor.forward ops A x ns true true
      = .ok (Actor.muAction ops A x, some (Actor.sampledAction ops A x ns),
          some (Actor.sampleLogPi ops A x ns)) := rfl

/-- With both flags cleared (as in `select_action`), `Actor.forward`
returns just the squashed mean. -/
theorem Actor.forward_det (ops : Ops) (A : Actor) (x ns : List ℚ) :
    Actor.forward ops A x ns false false
      = .ok (Actor.muAction ops A x, none, none) := rfl

/-- With `compute_pi` only (as in `sample_action`), `Actor.forward`
returns the squashed mean and the squashed sample. -/
theorem Actor.forward_pi_only (ops : Ops) (A : Actor) (x ns : List ℚ) :
    Actor.forward ops A x ns true false
      = .ok (Actor.muAction ops A x, some (Actor.sampledAction ops A x ns), none) := rfl

/-! ## `SAC.py` lines 76-102: the twin critic -/

/-- `SAC.Critic`: two independent 2-hidden-layer heads over the
concatenated `(state, action)` input. -/
structure Critic where
  l1W : List (List ℚ)
  l1b : List ℚ
  l2W : List (List ℚ)
  l2b : List ℚ
  l3W : List (List ℚ)
  l3b : List ℚ
  l4W : List (List ℚ)
  l4b : List ℚ
  l5W : List (List ℚ)
  l5b : List ℚ
  l6W : List (List ℚ)
  l6b : List ℚ

/-- One critic head: `l_out(relu(l_mid(relu(l_in(xu)))))`, a 1-dimensional
output read off as a scalar. -/
def criticHead (linW : List (List ℚ)) (linb : List ℚ) (midW : List (List ℚ))
    (midb : List ℚ) (outW : List (List ℚ)) (outb : List ℚ) (xu : List ℚ) : ℚ :=
  (linear outW outb (reluV (linear midW midb (reluV (linear linW linb xu))))).headD 0

/-- `Critic.forward(x, u)`: both heads on `torch.cat([x, u], 1)`. -/
def Critic.forward (C : Critic) (x u : List ℚ) : ℚ × ℚ :=
  let xu := x ++ u
  (criticHead C.l1W C.l1b C.l2W C.l2b C.l3W C.l3b xu,
   criticHead C.l4W C.l4b C.l5W C.l5b C.l6W C.l6b xu)

/-! ## `DistSAC.py` lines 36-112: goal-conditioned actor and critic -/

/-- `DistSAC.Actor`: like `SAC.Actor` but the input is the state
concatenated with the goal (truncated to its first two coordinates when
`only_pos` is set). -/
structure DActor where
  only_pos : Bool
  l1W : List (List ℚ)
  l1b : List ℚ
  l2W : List (List ℚ)
  l2b : List ℚ
  l3W : List (List ℚ)
  l3b : List ℚ
  log_std_min : ℚ
  log_std_max : ℚ

/-- The goal-conditioned input `torch.cat([x, x_g], dim=1)` with the
`only_pos` truncation `x_g[:, :2]`. -/
def goalInput (only_pos : Bool) (x x_g : List ℚ) : List ℚ :=
  x ++ (if only_pos then x_g.take 2 else x_g)

/-- `(mu, log_std)` of `DistSAC.Actor.forward` on `(x, x_g)`. -/
def DActor.trunk (ops : Ops) (A : DActor) (x x_g : List ℚ) : List ℚ × List ℚ :=
  mlpTrunk ops A.l1W A.l1b A.l2W A.l2b A.l3W A.l3b A.log_std_min A.log_std_max
    (goalInput A.only_pos x x_g)

/-- `pi = mu + noise * std` before squashing, goal-conditioned. -/
def DActor.preSquashPi (ops : Ops) (A : DActor) (x x_g ns : List ℚ) : List ℚ :=
  zipWith3 (fun m s n => m + n * ops.exp s) (DActor.trunk ops A x x_g).1
    (DActor.trunk ops A x x_g).2 ns

/-- The deterministic action `tanh(mu)` of the goal-conditioned actor. -/
def DActor.muAction (ops : Ops) (A : DActor) (x x_g : List ℚ) : List ℚ :=
  ((DActor.trunk ops A x x_g).1).map ops.tanh

/-- The squashed sampled action of the goal-conditioned actor. -/
def DActor.sampledAction (ops : Ops) (A : DActor) (x x_g ns : List ℚ) : List ℚ :=
  (DActor.preSquashPi ops A x x_g ns).map ops.tanh

/-- The corrected log-probability of the goal-conditioned actor. -/
def DActor.sampleLogPi (ops : Ops) (A : DActor) (x x_g ns : List ℚ) : ℚ :=
  gaussian_likelihood ops ns (DActor.trunk ops A x x_g).2
    - squashCorrection ops (DActor.sampledAction ops A x x_g ns)

/-- `DistSAC.Actor.forward(x, x_g, compute_pi, compute_log_pi)`; same
unbound-`noise` failure mode as the SAC actor. -/
def DActor.forward (ops : Ops) (A : DActor) (x x_g ns : List ℚ)
    (compute_pi compute_log_pi : Bool) :
    Except String (List ℚ × Option (List ℚ) × Option ℚ) := do
  let mu := (DActor.trunk ops A x x_g).1
  let log_std := (DActor.trunk ops A x x_g).2
  let noise? : Option (List ℚ) := if compute_pi then some ns else none
  let pi? : Option (List ℚ) :=
    if compute_pi then some (DActor.preSquashPi ops A x x_g ns) else none
  let log_pi? : Option ℚ ←
    if compute_log_pi then
      match noise? with
      | some noise => pure (some (gaussian_likelihood ops noise log_std))
      | none => Except.error "UnboundLocalError: local variable noise referenced before assignment"
    else pure none
  apply_squashing_func ops mu pi? log_pi?

/-- With both flags set, `DActor.forward` succeeds with the sampled
action and corrected log-probability. -/
theorem DActor.forward_both_goal (ops : Ops) (A : DActor) (x x_g ns : List ℚ) :
    DActor.forward ops A x x_g ns true true
      = .ok (DActor.muAction ops A x x_g, some (DActor.sampledAction ops A x x_g ns),
          some (DActor.sampleLogPi ops A x x_g ns)) := rfl

/-- With both flags cleared (as in `get_distance`), `DActor.forward`
returns just the squashed mean. -/
theorem DActor.forward_det_goal (ops : Ops) (A : DActor) (x x_g ns : List ℚ) :
    DActor.forward ops A x x_g ns false false
      = .ok (DActor.muAction ops A x x_g, none, none) := rfl

/-- `DistSAC.Critic`: twin heads over `torch.cat([x, x_g, u], dim=1)`
with the same `only_pos` truncation of the goal. -/
structure DCritic where
  only_pos : Bool
  l1W : List (List ℚ)
  l1b : List ℚ
  l2W : List (List ℚ)
  l2b : List ℚ
  l3W : List (List ℚ)
  l3b : List ℚ
  l4W : List (List ℚ)
  l4b : List ℚ
  l5W : List (List ℚ)
  l5b : List ℚ
  l6W : List (List ℚ)
  l6b : List ℚ

/-- `DistSAC.Critic.forward(x, x_g, u)`. -/
def DCritic.forward (C : DCritic) (x x_g u : List ℚ) : ℚ × ℚ :=
  let xu := goalInput C.only_pos x x_g ++ u
  (criticHead C.l1W C.l1b C.l2W C.l2b C.l3W C.l3b xu,
   criticHead C.l4W C.l4b C.l5W C.l5b C.l6W C.l6b xu)

/-- C1: with both sampling and log-probability requested, the returned
log-probability is the closed-form Gaussian log-likelihood of the noise,
`sum(-0.5*noise^2 - log_std) - 0.5*D*log(2*pi)` with `D` the action
dimension, minus the tanh-squashing Jacobian correction
`sum(log(1 - tanh(pre_squash)^2 + 1e-6))` (the `F.relu` in the source is
the identity here since `tanh(t)^2 <= 1`). -/
theorem actor_log_prob_closed_form (ops : Ops) (A : Actor) (x ns : List ℚ)
    (h : ∀ t : ℚ, (ops.tanh t) ^ 2 ≤ 1) :
    Actor.forward ops A x ns true true
      = .ok (Actor.muAction ops A x, some (Actor.sampledAction ops A x ns),
          some ((((List.zipWith (fun n s => -(1 / 2) * n ^ 2 - s) ns
                (Actor.trunk ops A x).2).sum)
              - (1 / 2) * (ns.length : ℚ) * ops.log2pi)
            - ((Actor.preSquashPi ops A x ns).map
                (fun t => ops.log (1 - (ops.tanh t) ^ 2 + eps6))).sum)) := by
  rw [Actor.forward_both]
  simp only [Except.ok.injEq, Prod.mk.injEq, Option.some.injEq, true_and]
  have hcorr : squashCorrection ops (Actor.sampledAction ops A x ns)
      = ((Actor.preSquashPi ops A x ns).map
          (fun t => ops.log (1 - (ops.tanh t) ^ 2 + eps6))).sum := by
    unfold squashCorrection Actor.sampledAction
    rw [List.map_map]
    have hfun : (fun t => ops.log (reluQ (1 - t ^ 2) + eps6)) ∘ ops.tanh
        = fun u => ops.log (1 - (ops.tanh u) ^ 2 + eps6) := by
      funext u
      have h0 : (0 : ℚ) ≤ 1 - (ops.tanh u) ^ 2 := sub_nonneg.mpr (h u)
      simp [Function.comp, reluQ, max_eq_left h0]
    rw [hfun]
  unfold Actor.sampleLogPi gaussian_likelihood
  rw [hcorr]
  ring

/-- Witness for C1 at a concrete 1-dimensional actor with a bounded
abstract `tanh`. -/
theorem actor_log_prob_closed_form_witness :
    (∀ t : ℚ, ((Ops.mk (fun _ => 0) id id id 0).tanh t) ^ 2 ≤ 1)
    ∧ Actor.forward (Ops.mk (fun _ => 0) id id id 0)
        (Actor.mk [[1]] [0] [[1]] [0] [[1], [0]] [0, 0] (-20) 2) [1] [1] true true
      = .ok (Actor.muAction (Ops.mk (fun _ => 0) id id id 0)
            (Actor.mk [[1]] [0] [[1]] [0] [[1], [0]] [0, 0] (-20) 2) [1],
          some (Actor.sampledAction (Ops.mk (fun _ => 0) id id id 0)
            (Actor.mk [[1]] [0] [[1]] [0] [[1], [0]] [0, 0] (-20) 2) [1] [1]),
          some ((((List.zipWith (fun n s => -(1 / 2) * n ^ 2 - s) [(1 : ℚ)]
                (Actor.trunk (Ops.mk (fun _ => 0) id id id 0)
                  (Actor.mk [[1]] [0] [[1]] [0] [[1], [0]] [0, 0] (-20) 2) [1]).2).sum)
              - (1 / 2) * (([(1 : ℚ)].length : ℚ)) * (Ops.mk (fun _ => 0) id id id 0).log2pi)
            - ((Actor.preSquashPi (Ops.mk (fun _ => 0) id id id 0)
                  (Actor.mk [[1]] [0] [[1]] [0] [[1], [0]] [0, 0] (-20) 2) [1] [1]).map
                (fun t => (Ops.mk (fun _ => 0) id id id 0).log
                  (1 - ((Ops.mk (fun _ => 0) id id id 0).tanh t) ^ 2 + eps6))).sum)) := by
  constructor
  · intro t
    norm_num
  · exact actor_log_prob_closed_form (Ops.mk (fun _ => 0) id id id 0)
      (Actor.mk [[1]] [0] [[1]] [0] [[1], [0]] [0, 0] (-20) 2) [1] [1]
      (fun t => by norm_num)

/-- C7: requesting the log-probability without requesting a sampled
action makes the forward pass fail (the source reads the unbound local
`noise`), for both the SAC actor and the goal-conditioned DistSAC actor;
no log-probability is ever returned from such a call. -/
theorem actor_log_pi_without_pi_rejected (ops : Ops) (A : Actor) (D : DActor)
    (x x_g ns : List ℚ) :
    Actor.forward ops A x ns false true
      = .error "UnboundLocalError: local variable noise referenced before assignment"
    ∧ DActor.forward ops D x x_g ns false true
      = .error "UnboundLocalError: local variable noise referenced before assignment" :=
  ⟨rfl, rfl⟩

/-! ## `torch.topk(..., largest=False)` and `DistSAC.get_distance` -/

/-- `dist.topk(k, dim=1, largest=False)` on one row: the values and
original indices of the `k` smallest entries, in ascending order
(modelled by a stable sort of the `(index, value)` pairs by value). -/
def topkSmallest (k : ℕ) (xs : List ℚ) : List ℚ × List ℕ :=
  let sorted := List.insertionSort (fun a b : ℕ × ℚ => a.2 ≤ b.2) xs.enum
  ((sorted.take k).map Prod.snd, (sorted.take k).map Prod.fst)

/-- `topkSmallest` really selects the `k` smallest entries: it returns
`min k xs.length` distinct in-range indices, the values are the entries
at those indices, and every selected entry is at most every unselected
entry. -/
theorem topkSmallest_spec (k : ℕ) (xs : List ℚ) :
    ((topkSmallest k xs).2).length = min k xs.length
    ∧ ((topkSmallest k xs).2).Nodup
    ∧ (∀ i ∈ (topkSmallest k xs).2, i < xs.length)
    ∧ (topkSmallest k xs).1 = ((topkSmallest k xs).2).map (fun i => xs.getD i 0)
    ∧ (∀ i ∈ (topkSmallest k xs).2, ∀ j, j < xs.length → j ∉ (topkSmallest k xs).2 →
        xs.getD i 0 ≤ xs.getD j 0) := by
  classical
  have htot : IsTotal (ℕ × ℚ) (fun a b : ℕ × ℚ => a.2 ≤ b.2) := ⟨fun a b => le_total a.2 b.2⟩
  have htrans : IsTrans (ℕ × ℚ) (fun a b : ℕ × ℚ => a.2 ≤ b.2) :=
    ⟨fun _ _ _ h1 h2 => le_trans h1 h2⟩
  set s := List.insertionSort (fun a b : ℕ × ℚ => a.2 ≤ b.2) xs.enum with hs
  have hperm : s.Perm xs.enum := List.perm_insertionSort _ xs.enum
  have hsorted : List.Sorted (fun a b : ℕ × ℚ => a.2 ≤ b.2) s :=
    List.sorted_insertionSort _ xs.enum
  have hmemenum : ∀ p : ℕ × ℚ, p ∈ s → xs[p.1]? = some p.2 := fun p hp =>
    List.mem_enum_iff_getElem?.mp (hperm.mem_iff.mp hp)
  have hmemlt : ∀ p : ℕ × ℚ, p ∈ s → p.1 < xs.length := fun p hp =>
    (List.getElem?_eq_some.mp (hmemenum p hp)).1
  have hmemval : ∀ p : ℕ × ℚ, p ∈ s → xs.getD p.1 0 = p.2 := by
    intro p hp
    rw [List.getD_eq_getElem?_getD, hmemenum p hp]
    rfl
  have hnodups : (s.map Prod.fst).Nodup := by
    have hp1 : (s.map Prod.fst).Perm (List.range xs.length) := by
      have := hperm.map Prod.fst
      rwa [List.enum_map_fst] at this
    exact hp1.symm.nodup (List.nodup_range xs.length)
  have hsplit : s.take k ++ s.drop k = s := List.take_append_drop k s
  have hcross : ∀ p ∈ s.take k, ∀ q ∈ s.drop k, p.2 ≤ q.2 := by
    have hpw : List.Pairwise (fun a b : ℕ × ℚ => a.2 ≤ b.2) (s.take k ++ s.drop k) := by
      rw [hsplit]
      exact hsorted
    exact (List.pairwise_append.mp hpw).2.2
  have htake_mem : ∀ p : ℕ × ℚ, p ∈ s.take k → p ∈ s := by
    intro p hp
    exact (List.take_sublist k s).mem hp
  have hlen : s.length = xs.length := by
    rw [hperm.length_eq, List.enum_length]
  refine ⟨?_, ?_, ?_, ?_, ?_⟩
  · simp only [topkSmallest, List.length_map, List.length_take]
    rw [hlen]
  · have : ((s.map Prod.fst).take k).Nodup :=
      (List.take_sublist k (s.map Prod.fst)).nodup hnodups
    simpa [topkSmallest, List.map_take] using this
  · intro i hi
    simp only [topkSmallest, List.mem_map] at hi
    obtain ⟨p, hp, rfl⟩ := hi
    exact hmemlt p (htake_mem p hp)
  · simp only [topkSmallest, List.map_map]
    apply List.map_congr_left
    intro p hp
    exact (hmemval p (htake_mem p hp)).symm
  · intro i hi j hj hj2
    simp only [topkSmallest, List.mem_map] at hi hj2
    obtain ⟨p, hp, rfl⟩ := hi
    have hgd : xs.getD j 0 = xs[j] := by
      rw [List.getD_eq_getElem?_getD, List.getElem?_eq_getElem hj]
      rfl
    have hq : ((j, xs[j]) : ℕ × ℚ) ∈ xs.enum :=
      List.mem_enum_iff_getElem?.mpr (List.getElem?_eq_getElem hj)
    have hqs : ((j, xs[j]) : ℕ × ℚ) ∈ s := hperm.mem_iff.mpr hq
    have hqd : ((j, xs[j]) : ℕ × ℚ) ∈ s.drop k := by
      rcases (List.mem_append.mp (by rw [hsplit]; exact hqs)) with hqt | hqd
      · exact absurd ⟨(j, xs[j]), hqt, rfl⟩ hj2
      · exact hqd
    have hle := hcross p hp (j, xs[j]) hqd
    rw [hmemval p (htake_mem p hp), hgd]
    exact hle

/-- `DistSAC.__init__`: the agent's learnable state and configuration
(the target critic starts as a hard copy of the online critic). -/
structure DistSACAgent where
  num_candidates : ℕ
  actor : DActor
  critic : DCritic
  critic_target : DCritic
  log_alpha : ℚ
  use_l2 : Bool

/-- One row of `DistSAC.get_distance`: per-candidate distances (Euclidean
over the first two coordinates when `use_l2`, otherwise the negative
pessimistic critic value at the deterministic action), then
`topk(min(num_candidates, num_goals), largest=False)` and the mean of the
selected distances. -/
def DistSAC.get_distance_row (ops : Ops) (ag : DistSACAgent) (state : List ℚ)
    (goals : List (List ℚ)) : ℚ × List ℕ :=
  let dist :=
    if ag.use_l2 then
      goals.map (fun g =>
        ops.sqrt ((((state.take 2).zipWith (fun a b => a - b) (g.take 2)).map
          (fun d => d ^ 2)).sum))
    else
      goals.map (fun g =>
        let a := DActor.muAction ops ag.actor state g
        let q := DCritic.forward ag.critic state g a;
        -(min q.1 q.2))
  let num_candidates := min ag.num_candidates goals.length
  let vk := topkSmallest num_candidates dist
  (vk.1.sum / (num_candidates : ℚ), vk.2)

/-- `DistSAC.get_distance(state, repeated_ctx)`: the batched version,
row by row. -/
def DistSAC.get_distance (ops : Ops) (ag : DistSACAgent)
    (state : List (List ℚ)) (repeated_ctx : List (List (List ℚ))) : List (ℚ × List ℕ) :=
  List.zipWith (DistSAC.get_distance_row ops ag) state repeated_ctx

/-- The per-candidate distance as the spec states it: Euclidean norm of
the difference of the first two coordinates in Euclidean mode, otherwise
`-min(Q1, Q2)(state, goal, deterministic_action)` with the deterministic
action the actor's tanh-squashed mean. -/
def specCandidateDist (ops : Ops) (ag : DistSACAgent) (state g : List ℚ) : ℚ :=
  if ag.use_l2 then
    ops.sqrt ((((state.take 2).zipWith (fun a b => a - b) (g.take 2)).map
      (fun d => d ^ 2)).sum)
  else
    -(min (DCritic.forward ag.critic state g (DActor.muAction ops ag.actor state g)).1
      (DCritic.forward ag.critic state g (DActor.muAction ops ag.actor state g)).2)

theorem get_distance_row_eq_topk (ops : Ops) (ag : DistSACAgent)
    (state : List ℚ) (goals : List (List ℚ)) :
    DistSAC.get_distance_row ops ag state goals
      = ((topkSmallest (min ag.num_candidates goals.length)
            (goals.map (specCandidateDist ops ag state))).1.sum
          / ((min ag.num_candidates goals.length : ℕ) : ℚ),
         (topkSmallest (min ag.num_candidates goals.length)
            (goals.map (specCandidateDist ops ag state))).2) := by
  by_cases hb : ag.use_l2
  · have hfun : specCandidateDist ops ag state = fun g =>
        ops.sqrt ((((state.take 2).zipWith (fun a b => a - b) (g.take 2)).map
          (fun d => d ^ 2)).sum) := by
      funext g
      simp [specCandidateDist, hb]
    simp [DistSAC.get_distance_row, hb, hfun]
  · have hfun : specCandidateDist ops ag state = fun g =>
        -(min (DCritic.forward ag.critic state g (DActor.muAction ops ag.actor state g)).1
          (DCritic.forward ag.critic state g (DActor.muAction ops ag.actor state g)).2) := by
      funext g
      simp [specCandidateDist, hb]
    simp [DistSAC.get_distance_row, hb, hfun]

/-- C4: for every state and non-empty batch of candidate goals,
`get_distance` returns the mean of the `k` smallest per-candidate
distances, `k = min(num_candidates, num_goals)`, together with the
(distinct, in-range) indices of those selected candidates, and every
selected candidate's distance is at most every unselected one's. -/
theorem get_distance_mean_of_k_smallest (ops : Ops) (ag : DistSACAgent)
    (state : List ℚ) (goals : List (List ℚ)) (hne : goals ≠ [])
    (hnc : 1 ≤ ag.num_candidates) :
    ((DistSAC.get_distance_row ops ag state goals).2).length
        = min ag.num_candidates goals.length
    ∧ ((DistSAC.get_distance_row ops ag state goals).2).Nodup
    ∧ (∀ i ∈ (DistSAC.get_distance_row ops ag state goals).2, i < goals.length)
    ∧ (DistSAC.get_distance_row ops ag state goals).1
        = (((DistSAC.get_distance_row ops ag state goals).2).map
            (fun i => (goals.map (specCandidateDist ops ag state)).getD i 0)).sum
          / ((min ag.num_candidates goals.length : ℕ) : ℚ)
    ∧ (∀ i ∈ (DistSAC.get_distance_row ops ag state goals).2,
        ∀ j, j < goals.length → j ∉ (DistSAC.get_distance_row ops ag state goals).2 →
          (goals.map (specCandidateDist ops ag state)).getD i 0
            ≤ (goals.map (specCandidateDist ops ag state)).getD j 0) := by
  have hlen : (goals.map (specCandidateDist ops ag state)).length = goals.length :=
    List.length_map _ _
  obtain ⟨h1, h2, h3, h4, h5⟩ :=
    topkSmallest_spec (min ag.num_candidates goals.length)
      (goals.map (specCandidateDist ops ag state))
  rw [get_distance_row_eq_topk]
  refine ⟨?_, h2, ?_, ?_, ?_⟩
  · rw [h1, hlen]
    omega
  · intro i hi
    rw [← hlen]
    exact h3 i hi
  · rw [h4]
  · intro i hi j hj hj2
    exact h5 i hi j (by rwa [hlen]) hj2

/-- Witness for C4: the spec's own Euclidean example, state `(0,0)`,
candidates `(3,4)` and `(1,0)`, `num_candidates = 1`. -/
theorem get_distance_mean_of_k_smallest_witness :
    ([[3, 4], [1, 0]] : List (List ℚ)) ≠ []
    ∧ 1 ≤ (DistSACAgent.mk 1
        (DActor.mk false [] [] [] [] [] [] 0 0)
        (DCritic.mk false [] [] [] [] [] [] [] [] [] [] [] [])
        (DCritic.mk false [] [] [] [] [] [] [] [] [] [] [] [])
        0 true).num_candidates
    ∧ (∀ i ∈ (DistSAC.get_distance_row (Ops.mk id id id id 0)
          (DistSACAgent.mk 1
            (DActor.mk false [] [] [] [] [] [] 0 0)
            (DCritic.mk false [] [] [] [] [] [] [] [] [] [] [] [])
            (DCritic.mk false [] [] [] [] [] [] [] [] [] [] [] [])
            0 true)
          [0, 0] [[3, 4], [1, 0]]).2,
        ∀ j, j < ([[3, 4], [1, 0]] : List (List ℚ)).length →
          j ∉ (DistSAC.get_distance_row (Ops.mk id id id id 0)
            (DistSACAgent.mk 1
              (DActor.mk false [] [] [] [] [] [] 0 0)
              (DCritic.mk false [] [] [] [] [] [] [] [] [] [] [] [])
              (DCritic.mk false [] [] [] [] [] [] [] [] [] [] [] [])
              0 true)
            [0, 0] [[3, 4], [1, 0]]).2 →
          (([[3, 4], [1, 0]] : List (List ℚ)).map
            (specCandidateDist (Ops.mk id id id id 0)
              (DistSACAgent.mk 1
                (DActor.mk false [] [] [] [] [] [] 0 0)
                (DCritic.mk false [] [] [] [] [] [] [] [] [] [] [] [])
                (DCritic.mk false [] [] [] [] [] [] [] [] [] [] [] [])
                0 true)
              [0, 0])).getD i 0
            ≤ (([[3, 4], [1, 0]] : List (List ℚ)).map
              (specCandidateDist (Ops.mk id id id id 0)
                (DistSACAgent.mk 1
                  (DActor.mk false [] [] [] [] [] [] 0 0)
                  (DCritic.mk false [] [] [] [] [] [] [] [] [] [] [] [])
                  (DCritic.mk false [] [] [] [] [] [] [] [] [] [] [] [])
                  0 true)
                [0, 0])).getD j 0) := by
  refine ⟨by decide, ?_, ?_⟩
  · exact le_refl 1
  · exact (get_distance_mean_of_k_smallest (Ops.mk id id id id 0)
      (DistSACAgent.mk 1
        (DActor.mk false [] [] [] [] [] [] 0 0)
        (DCritic.mk false [] [] [] [] [] [] [] [] [] [] [] [])
        (DCritic.mk false [] [] [] [] [] [] [] [] [] [] [] [])
        0 true)
      [0, 0] [[3, 4], [1, 0]] (by decide) (le_refl 1)).2.2.2.2

/-! ## `SAC.py` lines 105-246: the SAC trainer -/

/-- One call `L.log(key, value, stepArg, n=nArg)` to the metrics
collector, recorded positionally: `stepArg` is whatever was passed in the
third (`step`) slot and `nArg` whatever was passed as `n`. -/
structure LogEntry where
  key : String
  value : ℚ
  stepArg : ℕ
  nArg : ℕ
deriving DecidableEq

/-- A replay-buffer transition row `(state, action, reward, next_state,
done)`. -/
structure Row where
  state : List ℚ
  action : List ℚ
  reward : ℚ
  next_state : List ℚ
  done : ℚ
deriving DecidableEq

/-- The Adam optimizer steps, abstracted: a step maps the current
parameters and the loss as a function of those parameters to new
parameters.  (Only which parameter set each optimizer owns matters for
the claims; the numeric update rule is external library code.) -/
structure OptSteps where
  criticStep : Critic → (Critic → ℚ) → Critic
  actorStep : Actor → (Actor → ℚ) → Actor
  alphaStep : ℚ → (ℚ → ℚ) → ℚ

/-- `SAC.__init__`: actor, online critic, target critic and `log_alpha`.
The target critic is `load_state_dict`-initialized as a hard copy of the
online critic. -/
structure SACAgent where
  actor : Actor
  critic : Critic
  critic_target : Critic
  log_alpha : ℚ

/-- `SAC.__init__` given the (externally randomly initialized) actor and
critic parameters: the target critic starts as a hard copy. -/
def SAC.mkAgent (actor : Actor) (critic : Critic) (log_alpha : ℚ) : SACAgent :=
  { actor := actor, critic := critic, critic_target := critic, log_alpha := log_alpha }

/-- The per-row critic regression target of `SAC.train.fit_critic`,
computed inside `torch.no_grad()`: a fresh stochastic sample of the
current actor at `next_state`, the *target* critic's pessimistic value,
the entropy penalty `alpha * log_pi`, discounting and masking by
`1 - done`.  `reward` is the (possibly exploration-augmented) reward
column and `cnoise` the per-row Gaussian draws. -/
def SAC.targetQList (ops : Ops) (ag : SACAgent) (rows : List Row)
    (cnoise : List (List ℚ)) (reward : List ℚ) (discount : ℚ) : List ℚ :=
  zipWith3 (fun (r : Row) (n : List ℚ) (rv : ℚ) =>
    let policy_action := Actor.sampledAction ops ag.actor r.next_state n
    let log_pi := Actor.sampleLogPi ops ag.actor r.next_state n
    let q := Critic.forward ag.critic_target r.next_state policy_action
    let target_V := min q.1 q.2 - ops.exp ag.log_alpha * log_pi
    rv + (1 - r.done) * discount * target_V) rows cnoise reward

/-- The critic loss of `SAC.train.fit_critic` as a function of the critic
parameters being optimized: both heads' mean-squared error against the
fixed (no-grad) target. -/
def SAC.criticLossFn (ops : Ops) (ag : SACAgent) (rows : List Row)
    (cnoise : List (List ℚ)) (reward : List ℚ) (discount : ℚ) (w : Critic) : ℚ :=
  let tgt := SAC.targetQList ops ag rows cnoise reward discount
  mseQ (rows.map (fun r => (Critic.forward w r.state r.action).1)) tgt
    + mseQ (rows.map (fun r => (Critic.forward w r.state r.action).2)) tgt

/-- `SAC.train.fit_critic`: logs the critic loss and performs one critic
optimizer step; no other field of the agent changes. -/
def SAC.fit_critic (ops : Ops) (opt : OptSteps) (ag : SACAgent) (rows : List Row)
    (cnoise : List (List ℚ)) (reward : List ℚ) (discount : ℚ) (step : ℕ) :
    SACAgent × LogEntry :=
  let lossFn := SAC.criticLossFn ops ag rows cnoise reward discount
  ({ ag with critic := opt.criticStep ag.critic lossFn },
   { key := "train/critic_loss", value := lossFn ag.critic * (rows.length : ℚ),
     stepArg := step, nArg := rows.length })

/-- The actor loss of `SAC.train.fit_actor` as a function of the actor
parameters: `mean(alpha.detach() * log_pi - min(Q1, Q2)(state, pi))`
against the (already critic-updated) online critic. -/
def SAC.actorLossFn (ops : Ops) (critic : Critic) (log_alpha : ℚ) (rows : List Row)
    (anoise : List (List ℚ)) (a : Actor) : ℚ :=
  (List.zipWith (fun (r : Row) (n : List ℚ) =>
      let pi := Actor.sampledAction ops a r.state n
      let log_pi := Actor.sampleLogPi ops a r.state n
      let q := Critic.forward critic r.state pi
      ops.exp log_alpha * log_pi - min q.1 q.2) rows anoise).sum / (rows.length : ℚ)

/-- The temperature loss `mean(alpha * (-log_pi - target_entropy).detach())`
as a function of `log_alpha`; the detached `log_pi` comes from the
pre-update actor. -/
def SAC.alphaLossFn (ops : Ops) (actor : Actor) (rows : List Row)
    (anoise : List (List ℚ)) (target_entropy : ℚ) (la : ℚ) : ℚ :=
  (List.zipWith (fun (r : Row) (n : List ℚ) =>
      ops.exp la * (-(Actor.sampleLogPi ops actor r.state n) - target_entropy))
    rows anoise).sum / (rows.length : ℚ)

/-- `SAC.train.fit_actor`: logs the actor loss, one actor optimizer step,
and (when `target_entropy` is given) one temperature step using the
pre-update actor's detached log-probabilities. -/
def SAC.fit_actor (ops : Ops) (opt : OptSteps) (ag : SACAgent) (rows : List Row)
    (anoise : List (List ℚ)) (target_entropy : Option ℚ) (step : ℕ) :
    SACAgent × LogEntry :=
  let lossVal := SAC.actorLossFn ops ag.critic ag.log_alpha rows anoise ag.actor
  let actor2 := opt.actorStep ag.actor (SAC.actorLossFn ops ag.critic ag.log_alpha rows anoise)
  let la2 := match target_entropy with
    | some te => opt.alphaStep ag.log_alpha (SAC.alphaLossFn ops ag.actor rows anoise te)
    | none => ag.log_alpha
  ({ ag with actor := actor2, log_alpha := la2 },
   { key := "train/actor_loss", value := lossVal * (rows.length : ℚ),
     stepArg := step, nArg := rows.length })

/-- Elementwise soft update of a parameter vector. -/
def mixRow (tau : ℚ) (o t : List ℚ) : List ℚ :=
  List.zipWith (fun a b => tau * a + (1 - tau) * b) o t

/-- Elementwise soft update of a parameter matrix. -/
def mixMat (tau : ℚ) (o t : List (List ℚ)) : List (List ℚ) :=
  List.zipWith (mixRow tau) o t

/-- Modelled from the spec: `utils.soft_update_params` lives in
`utils.py`, which is not part of the provided sources; the spec states
that it sets every target critic parameter to the elementwise convex
combination `tau * online + (1 - tau) * target`. -/
def soft_update_params (net target : Critic) (tau : ℚ) : Critic :=
  { l1W := mixMat tau net.l1W target.l1W, l1b := mixRow tau net.l1b target.l1b,
    l2W := mixMat tau net.l2W target.l2W, l2b := mixRow tau net.l2b target.l2b,
    l3W := mixMat tau net.l3W target.l3W, l3b := mixRow tau net.l3b target.l3b,
    l4W := mixMat tau net.l4W target.l4W, l4b := mixRow tau net.l4b target.l4b,
    l5W := mixMat tau net.l5W target.l5W, l5b := mixRow tau net.l5b target.l5b,
    l6W := mixMat tau net.l6W target.l6W, l6b := mixRow tau net.l6b target.l6b }

/-- Modelled from the spec: the DistSAC variant of
`utils.soft_update_params` for the goal-conditioned critic. -/
def dist_soft_update_params (net target : DCritic) (tau : ℚ) : DCritic :=
  { only_pos := net.only_pos,
    l1W := mixMat tau net.l1W target.l1W, l1b := mixRow tau net.l1b target.l1b,
    l2W := mixMat tau net.l2W target.l2W, l2b := mixRow tau net.l2b target.l2b,
    l3W := mixMat tau net.l3W target.l3W, l3b := mixRow tau net.l3b target.l3b,
    l4W := mixMat tau net.l4W target.l4W, l4b := mixRow tau net.l4b target.l4b,
    l5W := mixMat tau net.l5W target.l5W, l5b := mixRow tau net.l5b target.l5b,
    l6W := mixMat tau net.l6W target.l6W, l6b := mixRow tau net.l6b target.l6b }

/-- `SAC.train`: samples are the `rows`; the exploration bonus queries
the distance policy on a zero-goal context when `expl_coef > 0`; the
batch reward is logged (note the source passes `reward.size(0)` in the
`step` slot and `step` as `n` for this one call); the critic is fitted
every step; the actor, temperature and target critic only when
`step % policy_freq == 0`.  Returns the new agent and the log calls in
order. -/
def SAC.train (ops : Ops) (opt : OptSteps) (ag : SACAgent) (rows : List Row)
    (step : ℕ) (dist_policy : DistSACAgent) (cnoise anoise : List (List ℚ))
    (discount tau : ℚ) (policy_freq : ℕ) (target_entropy : Option ℚ)
    (expl_coef : ℚ) (dist_threshold : ℚ) : SACAgent × List LogEntry :=
  let reward0 := rows.map (fun r => r.reward)
  let B := rows.length
  let rewardLogs :=
    if 0 < expl_coef then
      let expl_bonus := rows.map (fun r =>
        (DistSAC.get_distance_row ops dist_policy r.state
          [List.replicate r.state.length 0]).1 * expl_coef)
      (List.zipWith (fun a b => a + b) reward0 expl_bonus,
       [{ key := "train/expl_bonus", value := expl_bonus.sum,
          stepArg := step, nArg := B : LogEntry }])
    else (reward0, [])
  let reward := rewardLogs.1
  let logs1 := rewardLogs.2 ++
    [{ key := "train/batch_reward", value := reward.sum, stepArg := B, nArg := step }]
  let fc := SAC.fit_critic ops opt ag rows cnoise reward discount step
  if step % policy_freq == 0 then
    let fa := SAC.fit_actor ops opt fc.1 rows anoise target_entropy step
    let ag3 := { fa.1 with
      critic_target := soft_update_params fa.1.critic fa.1.critic_target tau }
    (ag3, logs1 ++ [fc.2, fa.2])
  else (fc.1, logs1 ++ [fc.2])

/-- The critic regression target for one transition exactly as the spec
states it: `reward + not_done * discount * target_V` with
`target_V = min(Q1, Q2)(next_state, policy_action) - alpha * log_pi`,
the primed Q-values from the target critic and the action/log-probability
from a fresh stochastic sample of the current actor at `next_state`. -/
def specCriticTarget (ops : Ops) (ag : SACAgent) (r : Row) (n : List ℚ)
    (rv discount : ℚ) : ℚ :=
  let policy_action := Actor.sampledAction ops ag.actor r.next_state n
  let log_pi := Actor.sampleLogPi ops ag.actor r.next_state n
  let target_V :=
    min (Critic.forward ag.critic_target r.next_state policy_action).1
        (Critic.forward ag.critic_target r.next_state policy_action).2
      - ops.exp ag.log_alpha * log_pi
  rv + (1 - r.done) * discount * target_V

/-- C2: in every `SAC.train` call (shown here for `expl_coef = 0` and a
non-actor step so that the whole call is characterized), the critic
target is the spec's `reward + not_done * discount * target_V` per row,
the critic loss is the sum of both heads' MSE against that fixed target,
and the critic optimizer step changes only the critic parameters. -/
theorem sac_critic_regression_spec (ops : Ops) (opt : OptSteps) (ag : SACAgent)
    (rows : List Row) (step : ℕ) (dp : DistSACAgent) (cnoise anoise : List (List ℚ))
    (discount tau : ℚ) (policy_freq : ℕ) (te : Option ℚ) (dth : ℚ) (rw : List ℚ)
    (hstep : step % policy_freq ≠ 0) :
    SAC.targetQList ops ag rows cnoise rw discount
        = zipWith3 (fun r n rv => specCriticTarget ops ag r n rv discount) rows cnoise rw
    ∧ (SAC.fit_critic ops opt ag rows cnoise rw discount step).1
        = { ag with critic := (opt.criticStep ag.critic
              (fun w => mseQ (rows.map (fun r => (Critic.forward w r.state r.action).1))
                  (SAC.targetQList ops ag rows cnoise rw discount)
                + mseQ (rows.map (fun r => (Critic.forward w r.state r.action).2))
                  (SAC.targetQList ops ag rows cnoise rw discount))) }
    ∧ SAC.train ops opt ag rows step dp cnoise anoise discount tau policy_freq te 0 dth
        = ((SAC.fit_critic ops opt ag rows cnoise (rows.map (fun r => r.reward))
              discount step).1,
           [{ key := "train/batch_reward", value := (rows.map (fun r => r.reward)).sum,
              stepArg := rows.length, nArg := step },
            (SAC.fit_critic ops opt ag rows cnoise (rows.map (fun r => r.reward))
              discount step).2]) := by
  have h0 : ¬((0 : ℚ) < 0) := lt_irrefl 0
  have hbeq : (step % policy_freq == 0) = false := by
    simpa using hstep
  refine ⟨rfl, rfl, ?_⟩
  simp only [SAC.train, if_neg h0, hbeq, Bool.false_eq_true, if_false, List.nil_append,
    List.singleton_append]

/-! Concrete fixtures used by the trainer witnesses. -/

def wOps : Ops := Ops.mk id id id id 0

def wActor : Actor := Actor.mk [[1]] [0] [[1]] [0] [[1], [0]] [0, 0] (-20) 2

def wCritic : Critic :=
  Critic.mk [[1, 1]] [0] [[1]] [0] [[1]] [0] [[1, 1]] [0] [[1]] [0] [[1]] [0]

def wAgent : SACAgent := SAC.mkAgent wActor wCritic 0

def wOpt : OptSteps := OptSteps.mk (fun c _ => c) (fun a _ => a) (fun la _ => la)

def wRow : Row := Row.mk [1] [1] 2 [1] 0

def wDistAgent : DistSACAgent :=
  DistSACAgent.mk 1 (DActor.mk false [[1, 1]] [0] [[1]] [0] [[1], [0]] [0, 0] (-20) 2)
    (DCritic.mk false [[1, 1, 1]] [0] [[1]] [0] [[1]] [0] [[1, 1, 1]] [0] [[1]] [0] [[1]] [0])
    (DCritic.mk false [[1, 1, 1]] [0] [[1]] [0] [[1]] [0] [[1, 1, 1]] [0] [[1]] [0] [[1]] [0])
    0 false

/-- Witness for C2 at a concrete batch of one transition and `step = 1`,
`policy_freq = 2`. -/
theorem sac_critic_regression_spec_witness :
    SAC.targetQList wOps wAgent [wRow] [[0]] [2] (99 / 100)
        = zipWith3 (fun r n rv => specCriticTarget wOps wAgent r n rv (99 / 100))
            [wRow] [[0]] [2]
    ∧ (SAC.fit_critic wOps wOpt wAgent [wRow] [[0]] [2] (99 / 100) 1).1
        = { wAgent with critic := (wOpt.criticStep wAgent.critic
              (fun w => mseQ ([wRow].map (fun r => (Critic.forward w r.state r.action).1))
                  (SAC.targetQList wOps wAgent [wRow] [[0]] [2] (99 / 100))
                + mseQ ([wRow].map (fun r => (Critic.forward w r.state r.action).2))
                  (SAC.targetQList wOps wAgent [wRow] [[0]] [2] (99 / 100)))) }
    ∧ SAC.train wOps wOpt wAgent [wRow] 1 wDistAgent [[0]] [[0]] (99 / 100) (1 / 200) 2
          none 0 10
        = ((SAC.fit_critic wOps wOpt wAgent [wRow] [[0]]
              ([wRow].map (fun r => r.reward)) (99 / 100) 1).1,
           [{ key := "train/batch_reward", value := ([wRow].map (fun r => r.reward)).sum,
              stepArg := [wRow].length, nArg := 1 },
            (SAC.fit_critic wOps wOpt wAgent [wRow] [[0]]
              ([wRow].map (fun r => r.reward)) (99 / 100) 1).2]) :=
  sac_critic_regression_spec wOps wOpt wAgent [wRow] 1 wDistAgent [[0]] [[0]]
    (99 / 100) (1 / 200) 2 none 10 [2] (by decide)

/-- C6: the target critic starts as a hard copy of the online critic; on
steps with `step % policy_freq != 0` a `SAC.train` call leaves it
untouched; on steps with `step % policy_freq == 0` it becomes exactly the
elementwise convex combination `tau * online + (1 - tau) * target` of the
(just-updated) online critic and the old target — it is never moved by
any optimizer step (the statement holds for arbitrary optimizer
abstractions `opt`). -/
theorem sac_target_critic_convex_update (ops : Ops) (opt : OptSteps)
    (actor0 : Actor) (critic0 : Critic) (la0 : ℚ) (ag : SACAgent) (rows : List Row)
    (s1 s2 : ℕ) (dp : DistSACAgent) (cnoise anoise : List (List ℚ))
    (discount tau : ℚ) (policy_freq : ℕ) (te : Option ℚ) (ec dth : ℚ)
    (h1 : s1 % policy_freq ≠ 0) (h2 : s2 % policy_freq = 0) :
    (SAC.mkAgent actor0 critic0 la0).critic_target = critic0
    ∧ (SAC.train ops opt ag rows s1 dp cnoise anoise discount tau policy_freq te
        ec dth).1.critic_target = ag.critic_target
    ∧ (SAC.train ops opt ag rows s2 dp cnoise anoise discount tau policy_freq te
        ec dth).1.critic_target
      = soft_update_params
          (SAC.train ops opt ag rows s2 dp cnoise anoise discount tau policy_freq te
            ec dth).1.critic
          ag.critic_target tau := by
  have hbeq1 : (s1 % policy_freq == 0) = false := by simpa using h1
  have hbeq2 : (s2 % policy_freq == 0) = true := by simpa using h2
  refine ⟨rfl, ?_, ?_⟩
  · simp [SAC.train, hbeq1, SAC.fit_critic]
  · simp [SAC.train, hbeq2, SAC.fit_critic, SAC.fit_actor]

/-- Witness for C6 at concrete inputs with `policy_freq = 2`, a non-actor
step `s1 = 1` and an actor step `s2 = 2`. -/
theorem sac_target_critic_convex_update_witness :
    (SAC.mkAgent wActor wCritic 0).critic_target = wCritic
    ∧ (SAC.train wOps wOpt wAgent [wRow] 1 wDistAgent [[0]] [[0]] (99 / 100) (1 / 200) 2
        none 0 10).1.critic_target = wAgent.critic_target
    ∧ (SAC.train wOps wOpt wAgent [wRow] 2 wDistAgent [[0]] [[0]] (99 / 100) (1 / 200) 2
        none 0 10).1.critic_target
      = soft_update_params
          (SAC.train wOps wOpt wAgent [wRow] 2 wDistAgent [[0]] [[0]] (99 / 100) (1 / 200) 2
            none 0 10).1.critic
          wAgent.critic_target (1 / 200) :=
  sac_target_critic_convex_update wOps wOpt wActor wCritic 0 wAgent [wRow] 1 2 wDistAgent
    [[0]] [[0]] (99 / 100) (1 / 200) 2 none 0 10 (by decide) (by decide)

/-- C3 (evidence for the code bug): at `SAC.train` with a batch of one
transition and `step = 5`, the `train/batch_reward` report passes the
batch size (1) in the positional `step` slot and the training step (5)
as `n` — the source line is
`L.log('train/batch_reward', reward.sum().item(), reward.size(0), step)`,
while the collector contract and the parallel DistSAC call use
`log(key, value, step, n=batch_size)`. -/
theorem sac_batch_reward_log_args_swapped :
    (SAC.train wOps wOpt wAgent [wRow] 5 wDistAgent [[0]] [[0]] (99 / 100) (1 / 200) 2
        none 0 10).2.head?
      = some { key := "train/batch_reward", value := 2, stepArg := 1, nArg := 5 }
    ∧ (1 : ℕ) ≠ 5 := by
  constructor
  · have h0 : ¬((0 : ℚ) < 0) := lt_irrefl 0
    have hbeq : ((5 : ℕ) % 2 == 0) = false := by decide
    simp [SAC.train, h0, hbeq, wRow]
  · decide

/-! ## `DistSAC.py` lines 181-266: the DistSAC trainer -/

/-- `same_goal_mask = (mask_noise > 0.9).float()` for one row. -/
def sameGoalMask (u : ℚ) : ℚ := if 9 / 10 < u then 1 else 0

/-- `traj_goal_mask = 1 - same_goal_mask`. -/
def trajGoalMask (u : ℚ) : ℚ := 1 - sameGoalMask u

/-- `goals = state * same_goal_mask + goals * traj_goal_mask`: the
per-row mask is broadcast over the state dimension. -/
def relabelGoalRow (u : ℚ) (s g : List ℚ) : List ℚ :=
  List.zipWith (fun a b => a * sameGoalMask u + b * trajGoalMask u) s g

/-- `(state - goals).norm(dim=-1)`: the Euclidean norm of the row
difference. -/
def normDiff (ops : Ops) (s g : List ℚ) : ℚ :=
  ops.sqrt (((List.zipWith (fun a b => a - b) s g).map (fun d => d ^ 2)).sum)

/-- `done = ((state - goals).norm(dim=-1, keepdim=True) < 1e-5).float()`. -/
def doneRow (ops : Ops) (s g : List ℚ) : ℚ :=
  if normDiff ops s g < tol5 then 1 else 0

/-- `reward = -(1 - done)` per row. -/
def rewardRow (d : ℚ) : ℚ := -(1 - d)

/-- The 7-tuple returned by `replay_buffer.sample(batch_size,
with_goal=True)`; `DistSAC.train` destructures it as
`state, action, _, next_state, _, goals, _`, discarding the stored
reward, done flag and the trailing component. -/
structure DistSample where
  state : List (List ℚ)
  action : List (List ℚ)
  reward : List ℚ
  next_state : List (List ℚ)
  done : List ℚ
  goals : List (List ℚ)
  extra : List ℚ
deriving DecidableEq

/-- The Adam steps of the DistSAC trainer, abstracted as in `OptSteps`. -/
structure DOptSteps where
  criticStep : DCritic → (DCritic → ℚ) → DCritic
  actorStep : DActor → (DActor → ℚ) → DActor
  alphaStep : ℚ → (ℚ → ℚ) → ℚ

/-- The per-row critic target of `DistSAC.train.fit_critic`, computed in
`torch.no_grad()` on `(next_state, goals)` with the relabeled reward and
done columns. -/
def DistSAC.targetQList (ops : Ops) (ag : DistSACAgent)
    (next_state goals : List (List ℚ)) (cnoise : List (List ℚ))
    (reward done : List ℚ) (discount : ℚ) : List ℚ :=
  zipWith3 (fun (p : List ℚ × List ℚ) (n : List ℚ) (rd : ℚ × ℚ) =>
      let policy_action := DActor.sampledAction ops ag.actor p.1 p.2 n
      let log_pi := DActor.sampleLogPi ops ag.actor p.1 p.2 n
      let q := DCritic.forward ag.critic_target p.1 p.2 policy_action
      let target_V := min q.1 q.2 - ops.exp ag.log_alpha * log_pi
      rd.1 + (1 - rd.2) * discount * target_V)
    (next_state.zip goals) cnoise (reward.zip done)

/-- The DistSAC critic loss as a function of the critic parameters. -/
def DistSAC.criticLossFn (ops : Ops) (ag : DistSACAgent)
    (state action next_state goals : List (List ℚ)) (cnoise : List (List ℚ))
    (reward done : List ℚ) (discount : ℚ) (w : DCritic) : ℚ :=
  let tgt := DistSAC.targetQList ops ag next_state goals cnoise reward done discount
  mseQ ((state.zip (goals.zip action)).map
      (fun t => (DCritic.forward w t.1 t.2.1 t.2.2).1)) tgt
    + mseQ ((state.zip (goals.zip action)).map
      (fun t => (DCritic.forward w t.1 t.2.1 t.2.2).2)) tgt

/-- `DistSAC.train.fit_critic`. -/
def DistSAC.fit_critic (ops : Ops) (opt : DOptSteps) (ag : DistSACAgent)
    (state action next_state goals : List (List ℚ)) (cnoise : List (List ℚ))
    (reward done : List ℚ) (discount : ℚ) (step : ℕ) : DistSACAgent × LogEntry :=
  let lossFn := DistSAC.criticLossFn ops ag state action next_state goals cnoise
    reward done discount
  ({ ag with critic := opt.criticStep ag.critic lossFn },
   { key := "train/dist_critic_loss", value := lossFn ag.critic * (state.length : ℚ),
     stepArg := step, nArg := state.length })

/-- The DistSAC actor loss as a function of the actor parameters. -/
def DistSAC.actorLossFn (ops : Ops) (critic : DCritic) (log_alpha : ℚ)
    (state goals anoise : List (List ℚ)) (a : DActor) : ℚ :=
  (zipWith3 (fun (s : List ℚ) (g : List ℚ) (n : List ℚ) =>
      let pi := DActor.sampledAction ops a s g n
      let log_pi := DActor.sampleLogPi ops a s g n
      let q := DCritic.forward critic s g pi
      ops.exp log_alpha * log_pi - min q.1 q.2) state goals anoise).sum
    / (state.length : ℚ)

/-- The DistSAC temperature loss as a function of `log_alpha`. -/
def DistSAC.alphaLossFn (ops : Ops) (actor : DActor)
    (state goals anoise : List (List ℚ)) (target_entropy : ℚ) (la : ℚ) : ℚ :=
  (zipWith3 (fun (s : List ℚ) (g : List ℚ) (n : List ℚ) =>
      ops.exp la * (-(DActor.sampleLogPi ops actor s g n) - target_entropy))
    state goals anoise).sum / (state.length : ℚ)

/-- `DistSAC.train.fit_actor`. -/
def DistSAC.fit_actor (ops : Ops) (opt : DOptSteps) (ag : DistSACAgent)
    (state goals anoise : List (List ℚ)) (target_entropy : Option ℚ) (step : ℕ) :
    DistSACAgent × LogEntry :=
  let lossVal := DistSAC.actorLossFn ops ag.critic ag.log_alpha state goals anoise ag.actor
  let actor2 := opt.actorStep ag.actor
    (DistSAC.actorLossFn ops ag.critic ag.log_alpha state goals anoise)
  let la2 := match target_entropy with
    | some te => opt.alphaStep ag.log_alpha
        (DistSAC.alphaLossFn ops ag.actor state goals anoise te)
    | none => ag.log_alpha
  ({ ag with actor := actor2, log_alpha := la2 },
   { key := "train/dist_actor_loss", value := lossVal * (state.length : ℚ),
     stepArg := step, nArg := state.length })

/-- `DistSAC.train`: destructures the sampled 7-tuple keeping only
`state, action, next_state, goals` (the sampled `perm` of the source is
computed but never used and is omitted), relabels each row's goal from
the per-row uniform `mask_noise`, recomputes `done` and `reward` from the
relabeled goals, logs the batch reward, fits the critic every call and
the actor/temperature/target only when `step % policy_freq == 0`. -/
def DistSAC.train (ops : Ops) (opt : DOptSteps) (ag : DistSACAgent)
    (sample : DistSample) (step : ℕ) (mask_noise : List ℚ)
    (cnoise anoise : List (List ℚ)) (discount tau : ℚ) (policy_freq : ℕ)
    (target_entropy : Option ℚ) : DistSACAgent × List LogEntry :=
  let state := sample.state
  let action := sample.action
  let next_state := sample.next_state
  let goals := zipWith3 relabelGoalRow mask_noise state sample.goals
  let done := List.zipWith (doneRow ops) state goals
  let reward := done.map rewardRow
  let logs1 := [{ key := "train/dist_batch_reward", value := reward.sum,
                  stepArg := step, nArg := reward.length : LogEntry }]
  let fc := DistSAC.fit_critic ops opt ag state action next_state goals cnoise
    reward done discount step
  if step % policy_freq == 0 then
    let fa := DistSAC.fit_actor ops opt fc.1 state goals anoise target_entropy step
    let ag3 := { fa.1 with
      critic_target := dist_soft_update_params fa.1.critic fa.1.critic_target tau }
    (ag3, logs1 ++ [fc.2, fa.2])
  else (fc.1, logs1 ++ [fc.2])

theorem zipWith_proj_left {α β : Type} (s : List α) (g : List β)
    (h : s.length = g.length) : List.zipWith (fun a _ => a) s g = s := by
  induction s generalizing g with
  | nil => simp
  | cons a as ih =>
      cases g with
      | nil => simp at h
      | cons b bs =>
          simp only [List.zipWith]
          rw [ih bs (by simpa using h)]

theorem zipWith_proj_right {α β : Type} (s : List α) (g : List β)
    (h : s.length = g.length) : List.zipWith (fun _ b => b) s g = g := by
  induction s generalizing g with
  | nil =>
      cases g with
      | nil => simp
      | cons b bs => simp at h
  | cons a as ih =>
      cases g with
      | nil => simp at h
      | cons b bs =>
          simp only [List.zipWith]
          rw [ih bs (by simpa using h)]

/-- C5: per-row goal relabeling in `DistSAC.train`: the goal becomes the
row's own state exactly when the row's uniform noise is strictly greater
than 0.9 (noise exactly 0.9 keeps the trajectory goal), the two masks
always sum to 1, the recomputed done flag is 1 iff the norm of
`state - goal` is below the `1e-5` tolerance, and the reward is
`-(1 - done)`, i.e. 0 at the goal and -1 otherwise. -/
theorem dist_goal_relabel_spec (ops : Ops) (u : ℚ) (s g : List ℚ)
    (hlen : s.length = g.length) :
    (9 / 10 < u → relabelGoalRow u s g = s)
    ∧ (u ≤ 9 / 10 → relabelGoalRow u s g = g)
    ∧ relabelGoalRow (9 / 10) s g = g
    ∧ sameGoalMask u + trajGoalMask u = 1
    ∧ (doneRow ops s g = 1 ↔ normDiff ops s g < tol5)
    ∧ (doneRow ops s g = 0 ↔ ¬ normDiff ops s g < tol5)
    ∧ rewardRow (doneRow ops s g) = -(1 - doneRow ops s g)
    ∧ rewardRow (doneRow ops s g) = (if normDiff ops s g < tol5 then 0 else -1) := by
  refine ⟨?_, ?_, ?_, ?_, ?_, ?_, rfl, ?_⟩
  · intro hu
    have hm : sameGoalMask u = 1 := if_pos hu
    simp only [relabelGoalRow, trajGoalMask, hm, mul_one, sub_self, mul_zero, add_zero]
    exact zipWith_proj_left s g hlen
  · intro hu
    have hm : sameGoalMask u = 0 := if_neg (not_lt.mpr hu)
    simp only [relabelGoalRow, trajGoalMask, hm, mul_zero, sub_zero, mul_one, zero_add]
    exact zipWith_proj_right s g hlen
  · have hm : sameGoalMask (9 / 10) = 0 := if_neg (lt_irrefl _)
    simp only [relabelGoalRow, trajGoalMask, hm, mul_zero, sub_zero, mul_one, zero_add]
    exact zipWith_proj_right s g hlen
  · simp [trajGoalMask]
  · by_cases hd : normDiff ops s g < tol5 <;> simp [doneRow, hd]
  · by_cases hd : normDiff ops s g < tol5 <;> simp [doneRow, hd]
  · by_cases hd : normDiff ops s g < tol5 <;> simp [doneRow, rewardRow, hd]

/-- Witness for C5 at the exact 0.9 boundary with concrete rows. -/
theorem dist_goal_relabel_spec_witness :
    (9 / 10 < (9 / 10 : ℚ) → relabelGoalRow (9 / 10) [1, 2] [3, 4] = [1, 2])
    ∧ ((9 / 10 : ℚ) ≤ 9 / 10 → relabelGoalRow (9 / 10) [1, 2] [3, 4] = [3, 4])
    ∧ relabelGoalRow (9 / 10) [1, 2] [3, 4] = [3, 4]
    ∧ sameGoalMask (9 / 10) + trajGoalMask (9 / 10) = 1
    ∧ (doneRow wOps [1, 2] [3, 4] = 1 ↔ normDiff wOps [1, 2] [3, 4] < tol5)
    ∧ (doneRow wOps [1, 2] [3, 4] = 0 ↔ ¬ normDiff wOps [1, 2] [3, 4] < tol5)
    ∧ rewardRow (doneRow wOps [1, 2] [3, 4]) = -(1 - doneRow wOps [1, 2] [3, 4])
    ∧ rewardRow (doneRow wOps [1, 2] [3, 4])
        = (if normDiff wOps [1, 2] [3, 4] < tol5 then 0 else -1) :=
  dist_goal_relabel_spec wOps (9 / 10) [1, 2] [3, 4] (by decide)

/-- C9: `DistSAC.train` is insensitive to the reward and done columns
delivered by the replay buffer: two train calls identical in everything
except the sampled reward, done (and trailing) columns produce the same
new agent and the same log entries, because those columns are discarded
and recomputed from the relabeled goals. -/
theorem dist_train_ignores_buffer_reward_done (ops : Ops) (opt : DOptSteps)
    (ag : DistSACAgent) (s1 s2 : DistSample) (step : ℕ) (mask_noise : List ℚ)
    (cnoise anoise : List (List ℚ)) (discount tau : ℚ) (policy_freq : ℕ)
    (te : Option ℚ)
    (hstate : s1.state = s2.state) (haction : s1.action = s2.action)
    (hnext : s1.next_state = s2.next_state) (hgoals : s1.goals = s2.goals) :
    DistSAC.train ops opt ag s1 step mask_noise cnoise anoise discount tau
        policy_freq te
      = DistSAC.train ops opt ag s2 step mask_noise cnoise anoise discount tau
        policy_freq te := by
  cases s1
  cases s2
  simp only at hstate haction hnext hgoals
  subst hstate
  subst haction
  subst hnext
  subst hgoals
  rfl

def wDOpt : DOptSteps := DOptSteps.mk (fun c _ => c) (fun a _ => a) (fun la _ => la)

def wSampleA : DistSample :=
  DistSample.mk [[1, 1]] [[1]] [7] [[1, 1]] [1] [[2, 2]] [0]

def wSampleB : DistSample :=
  DistSample.mk [[1, 1]] [[1]] [-3] [[1, 1]] [0] [[2, 2]] [9]

/-- Witness for C9: two concrete samples differing only in the stored
reward, done and trailing columns give identical train results. -/
theorem dist_train_ignores_buffer_reward_done_witness :
    DistSAC.train wOps wDOpt wDistAgent wSampleA 1 [0] [[0]] [[0]] (99 / 100)
        (1 / 200) 2 none
      = DistSAC.train wOps wDOpt wDistAgent wSampleB 1 [0] [[0]] [[0]] (99 / 100)
        (1 / 200) 2 none :=
  dist_train_ignores_buffer_reward_done wOps wDOpt wDistAgent wSampleA wSampleB 1 [0]
    [[0]] [[0]] (99 / 100) (1 / 200) 2 none rfl rfl rfl rfl
